import Mathlib

/-!
Verification development for the trafRep repository: a shallow embedding of
the PostgreSQL TCP-reassembly / framing engine (src/unnamed/part_002, package
stream, the current iteration; src/internal/stream/stream.go, the older
iteration), the message-type registry (message_types/client.go), and the
pacing fragment of the replay driver (internal/replay/replay.go).

Modelling conventions:
- bytes are `Nat` values (< 256 where it matters, stated as hypotheses);
- Go `time.Time` capture timestamps are `Nat`, with `0` playing the role of
  the zero `time.Time{}` (`IsZero`);
- fallible Go code (runtime panics: negative `make`, out-of-range indexing,
  slicing past the length of a slice) is embedded in `Except String`;
  a Go slice expression that reaches past the slice's length is modelled as a
  fault, since its Go behaviour (panic, or reading bytes that are not part of
  the logical buffer) depends on capacity and heap contents outside the model;
- loops are driven by a fuel argument that provably dominates the iteration
  count (each iteration consumes at least one buffered byte), keeping every
  definition executable by `decide` / `rfl`.
-/

namespace TrafRep

/-- binary.BigEndian.Uint32: decode four big-endian bytes. -/
def beUint32 (b0 b1 b2 b3 : Nat) : Nat :=
  ((b0 * 256 + b1) * 256 + b2) * 256 + b3

/-- binary.BigEndian.PutUint32: encode a value as four big-endian bytes. -/
def putUint32BE (v : Nat) : List Nat :=
  [v / 16777216 % 256, v / 65536 % 256, v / 256 % 256, v % 256]

/-- ClientMessageType (message_types/client.go): the leading byte of a client
frame, with `0` (`ClientMessageTypeOnlyLength`) the sentinel for length-only
messages. -/
abbrev ClientMessageType := Nat

/-- message_types/client.go `HaveTypeByte`: every type except the length-only
sentinel 0 carries a type byte. -/
def ClientMessageType.HaveTypeByte (mt : ClientMessageType) : Bool :=
  mt != 0

/-- message_types/client.go `NeedCommandCompleteAnswer`: true only for
Query ('Q' = 81). -/
def ClientMessageType.NeedCommandCompleteAnswer (mt : ClientMessageType) : Bool :=
  mt == 81

/-- message_types/client.go `NeedReadyForQueryAnswer`: true only for
Query ('Q' = 81). -/
def ClientMessageType.NeedReadyForQueryAnswer (mt : ClientMessageType) : Bool :=
  mt == 81

/-- message_types/client.go `IsSimpleQuery`: true only for Query ('Q' = 81). -/
def ClientMessageType.IsSimpleQuery (mt : ClientMessageType) : Bool :=
  mt == 81

/-- PostgreSQLMessage (part_002): one completed client message. The Go field
`Type` is spelled `type` here (`Type` is reserved in Lean). Timestamps are
`Nat` with 0 for the unset zero time. -/
structure PostgreSQLMessage where
  FirstTCPPacketTimestamp : Nat
  LastTCPPacketTimestamp : Nat
  CommandCompleteTimestamp : Nat
  ReadyForQueryTimestamp : Nat
  type : ClientMessageType
  Len : Nat
  Payload : List Nat
deriving Repr, DecidableEq

/-- The zero value `PostgreSQLMessage{}` returned by the try-create helpers
when the frame is still incomplete. -/
def zeroMessage : PostgreSQLMessage :=
  { FirstTCPPacketTimestamp := 0, LastTCPPacketTimestamp := 0,
    CommandCompleteTimestamp := 0, ReadyForQueryTimestamp := 0,
    type := 0, Len := 0, Payload := [] }

/-- segment (part_002): one contributing TCP packet's payload length and
capture timestamp. -/
structure Segment where
  length : Nat
  ts : Nat
deriving Repr, DecidableEq

/-- segments.timestampByOffset (part_002): timestamp of the segment carrying
the byte at `offset`; the zero time (0) when out of range. -/
def timestampByOffset : List Segment → Nat → Nat
  | [], _ => 0
  | seg :: rest, offset =>
    if offset < seg.length then seg.ts
    else timestampByOffset rest (offset - seg.length)

/-- Sum of the lengths recorded in a segment log (the quantity the Segment
Log invariant compares with the buffer length). -/
def segsTotalLength (segs : List Segment) : Nat :=
  (segs.map Segment.length).sum

/-- TCPStream (part_002): two reassembly buffers with their segment logs, the
completed client messages, and the two correlation cursors. -/
structure TCPStream where
  clientBuf : List Nat
  clientSegs : List Segment
  serverBuf : List Nat
  serverSegs : List Segment
  completed : List PostgreSQLMessage
  needCommandCompleteIndex : Nat
  needReadyForQueryIndex : Nat
deriving Repr, DecidableEq

/-- NewTCPStream (part_002): fresh empty stream (Go zero-valued indices). -/
def NewTCPStream : TCPStream :=
  { clientBuf := [], clientSegs := [], serverBuf := [], serverSegs := [],
    completed := [], needCommandCompleteIndex := 0, needReadyForQueryIndex := 0 }

/-- clientMessageType (part_002): the first byte of clientBuf. Callers
guarantee the buffer is nonempty; `getD` supplies the (unreachable) default. -/
def clientMessageType (s : TCPStream) : ClientMessageType :=
  s.clientBuf.getD 0 0

/-- tryCreateTypedMessage (part_002 lines 180-201). Reads clientBuf[1:5] as
the length field: with fewer than 5 buffered bytes that Go slice expression
reaches past the slice length (fault). `payloadLen := dataLen - 4` feeds
`make([]byte, payloadLen)`, which panics for dataLen < 4 (fault). A result
with processed = 0 is the incomplete-frame signal, as in the source. -/
def tryCreateTypedMessage (s : TCPStream) : Except String (PostgreSQLMessage × Nat) :=
  let msgType := clientMessageType s
  if s.clientBuf.length < 5 then
    .error "clientBuf[1:5]: slice bounds out of range"
  else
    let dataLen := beUint32 (s.clientBuf.getD 1 0) (s.clientBuf.getD 2 0)
      (s.clientBuf.getD 3 0) (s.clientBuf.getD 4 0)
    let total := 1 + dataLen
    if s.clientBuf.length < total then
      .ok (zeroMessage, 0)
    else if dataLen < 4 then
      .error "make: negative payload length"
    else
      let payloadLen := dataLen - 4
      let payload := (s.clientBuf.drop 5).take payloadLen
      .ok ({ FirstTCPPacketTimestamp := timestampByOffset s.clientSegs 0,
             LastTCPPacketTimestamp := timestampByOffset s.clientSegs (total - 1),
             CommandCompleteTimestamp := 0, ReadyForQueryTimestamp := 0,
             type := msgType, Len := dataLen, Payload := payload }, total)

/-- tryCreateUntypedMessage (part_002 lines 203-224). Same faults as the
typed path: reading bytes 0..4 needs 4 buffered bytes (the caller's loop
guard supplies them), and dataLen < 4 makes `make` panic. -/
def tryCreateUntypedMessage (s : TCPStream) : Except String (PostgreSQLMessage × Nat) :=
  if s.clientBuf.length < 4 then
    .error "clientBuf[0:4]: slice bounds out of range"
  else
    let dataLen := beUint32 (s.clientBuf.getD 0 0) (s.clientBuf.getD 1 0)
      (s.clientBuf.getD 2 0) (s.clientBuf.getD 3 0)
    if s.clientBuf.length < dataLen then
      .ok (zeroMessage, 0)
    else if dataLen < 4 then
      .error "make: negative payload length"
    else
      let payload := (s.clientBuf.drop 4).take (dataLen - 4)
      .ok ({ FirstTCPPacketTimestamp := timestampByOffset s.clientSegs 0,
             LastTCPPacketTimestamp := timestampByOffset s.clientSegs (dataLen - 1),
             CommandCompleteTimestamp := 0, ReadyForQueryTimestamp := 0,
             type := 0, Len := dataLen, Payload := payload }, dataLen)

/-- The segment-popping loop of clearProcessedBytes (part_002 lines 256-262):
pop whole segments until the running byte count reaches the processed count
(`r` is processed minus the bytes counted so far). Indexing past the end of
clientSegs is the Go index-out-of-range panic. Note that a segment straddling
the processed boundary is popped whole, not reduced. -/
def clearSegsAux : Nat → List Segment → Except String (List Segment)
  | 0, segs => .ok segs
  | _ + 1, [] => .error "clientSegs: index out of range"
  | r + 1, seg :: rest => clearSegsAux (r + 1 - seg.length) rest

/-- clearProcessedBytes (part_002 lines 254-263): drop the processed bytes
from clientBuf and advance the segment log with `clearSegsAux`. -/
def clearProcessedBytes (s : TCPStream) (processed : Nat) : Except String TCPStream :=
  match clearSegsAux processed s.clientSegs with
  | .error e => .error e
  | .ok segs => .ok { s with clientBuf := s.clientBuf.drop processed, clientSegs := segs }

/-- The loop of parseClientBuffer (part_002 lines 227-252), driven by fuel.
Dispatch is on `HaveTypeByte` (first byte different from 0), exactly as in
the source — not on an ASCII check. The cursor increments happen at
insertion: a message whose kind does not need the given answer bumps the
corresponding index. Each productive iteration consumes `processed ≥ 1`
bytes, so fuel `clientBuf.length + 1` can never run out. -/
def parseClientBufferFuel : Nat → TCPStream → Except String TCPStream
  | 0, _ => .error "fuel exhausted"
  | fuel + 1, s =>
    if 3 < s.clientBuf.length then
      match (if ClientMessageType.HaveTypeByte (clientMessageType s) then
               tryCreateTypedMessage s
             else
               tryCreateUntypedMessage s) with
      | .error e => .error e
      | .ok (msg, processed) =>
        if 0 < processed then
          let s1 := { s with
            needCommandCompleteIndex :=
              if ClientMessageType.NeedCommandCompleteAnswer msg.type then
                s.needCommandCompleteIndex
              else
                s.needCommandCompleteIndex + 1,
            needReadyForQueryIndex :=
              if ClientMessageType.NeedReadyForQueryAnswer msg.type then
                s.needReadyForQueryIndex
              else
                s.needReadyForQueryIndex + 1,
            completed := s.completed ++ [msg] }
          match clearProcessedBytes s1 processed with
          | .error e => .error e
          | .ok s2 => parseClientBufferFuel fuel s2
        else
          .ok s
    else
      .ok s

/-- parseClientBuffer (part_002 lines 227-252). -/
def parseClientBuffer (s : TCPStream) : Except String TCPStream :=
  parseClientBufferFuel (s.clientBuf.length + 1) s

/-- addClientData (part_002 lines 167-171): extend the client buffer and its
segment log, then extract what is complete. -/
def addClientData (s : TCPStream) (data : List Nat) (timestamp : Nat) :
    Except String TCPStream :=
  parseClientBuffer { s with
    clientBuf := s.clientBuf ++ data,
    clientSegs := s.clientSegs ++ [{ length := data.length, ts := timestamp }] }

/-- assignCommandComplete (part_002 lines 333-336), acting on the pair
(completed, needCommandCompleteIndex) that the method mutates: stamp
`completed[needCommandCompleteIndex]` unconditionally and bump the cursor.
Indexing at or past the end of `completed` is the Go index-out-of-range
panic. -/
def assignCommandComplete (completed : List PostgreSQLMessage) (idx : Nat)
    (ts : Nat) : Except String (List PostgreSQLMessage × Nat) :=
  if h : idx < completed.length then
    .ok (completed.set idx { completed[idx] with CommandCompleteTimestamp := ts }, idx + 1)
  else
    .error "completed: index out of range"

/-- assignReadyForQuery (part_002 lines 338-341). Defined in the source but
never invoked from anywhere in the repository. -/
def assignReadyForQuery (completed : List PostgreSQLMessage) (idx : Nat)
    (ts : Nat) : Except String (List PostgreSQLMessage × Nat) :=
  if h : idx < completed.length then
    .ok (completed.set idx { completed[idx] with ReadyForQueryTimestamp := ts }, idx + 1)
  else
    .error "completed: index out of range"

/-- The compaction loop shared by parseServerBuffer (part_002 lines 314-328)
and both directions of the older stream.go (lines 154-168, 222-236): pop
whole segments covered by `rem` consumed bytes and reduce the straddled
segment's length. -/
def reduceSegs (rem : Nat) : List Segment → List Segment
  | [] => []
  | seg :: rest =>
    if rem = 0 then seg :: reduceSegs 0 rest
    else if rem < seg.length then { seg with length := seg.length - rem } :: reduceSegs 0 rest
    else reduceSegs (rem - seg.length) rest

/-- The scanning loop of parseServerBuffer (part_002 lines 271-305), driven
by fuel. The buffer and segment log are read-only here; only the completed
list and the command-complete cursor change. Only frames whose first byte is
'C' (67) trigger `assignCommandComplete`; no byte value — in particular not
'Z' (90) — triggers `assignReadyForQuery`. The typed total is computed in
uint32 arithmetic as in the source (`total := uint32(1) + lenField`): at
lenField = 2^32 - 1 it wraps to 0, `processed` stops advancing, and the Go
loop spins forever — embedded as fuel exhaustion. Everywhere else each
scanned frame advances `processed` by at least one byte, so fuel
`serverBuf.length + 1` suffices. -/
def serverScanFuel : Nat → List Nat → List Segment → List PostgreSQLMessage →
    Nat → Nat → Except String (List PostgreSQLMessage × Nat × Nat)
  | 0, _, _, _, _, _ => .error "fuel exhausted"
  | fuel + 1, buf, segs, completed, ccIdx, processed =>
    let rem := buf.length - processed
    if rem = 0 then
      .ok (completed, ccIdx, processed)
    else if rem < 5 then
      .ok (completed, ccIdx, processed)
    else
      let remaining := buf.drop processed
      let first := remaining.getD 0 0
      let isASCIIType := (65 ≤ first && first ≤ 90) || (97 ≤ first && first ≤ 122)
      if isASCIIType then
        let lenField := beUint32 (remaining.getD 1 0) (remaining.getD 2 0)
          (remaining.getD 3 0) (remaining.getD 4 0)
        if lenField = 0 then
          .ok (completed, ccIdx, processed)
        else
          let total := (1 + lenField) % 4294967296
          if rem < total then
            .ok (completed, ccIdx, processed)
          else if first = 67 then
            match assignCommandComplete completed ccIdx (timestampByOffset segs processed) with
            | .error e => .error e
            | .ok (completed1, ccIdx1) =>
              serverScanFuel fuel buf segs completed1 ccIdx1 (processed + total)
          else
            serverScanFuel fuel buf segs completed ccIdx (processed + total)
      else
        let lenField := beUint32 (remaining.getD 0 0) (remaining.getD 1 0)
          (remaining.getD 2 0) (remaining.getD 3 0)
        if lenField = 0 then
          .ok (completed, ccIdx, processed)
        else if rem < lenField then
          .ok (completed, ccIdx, processed)
        else
          serverScanFuel fuel buf segs completed ccIdx (processed + lenField)

/-- parseServerBuffer (part_002 lines 268-331): scan the server buffer for
frame boundaries, correlate 'C' frames, then compact buffer and segment log
by the processed byte count. -/
def parseServerBuffer (s : TCPStream) : Except String TCPStream :=
  match serverScanFuel (s.serverBuf.length + 1) s.serverBuf s.serverSegs
      s.completed s.needCommandCompleteIndex 0 with
  | .error e => .error e
  | .ok (completed, ccIdx, processed) =>
    if 0 < processed then
      if s.serverBuf.length ≤ processed then
        .ok { s with completed := completed, needCommandCompleteIndex := ccIdx,
                     serverBuf := [], serverSegs := [] }
      else
        .ok { s with completed := completed, needCommandCompleteIndex := ccIdx,
                     serverBuf := s.serverBuf.drop processed,
                     serverSegs := reduceSegs processed s.serverSegs }
    else
      .ok { s with completed := completed, needCommandCompleteIndex := ccIdx }

/-- addServerData (part_002 lines 173-177): extend the server buffer and its
segment log, then scan for correlation events. -/
def addServerData (s : TCPStream) (data : List Nat) (timestamp : Nat) :
    Except String TCPStream :=
  parseServerBuffer { s with
    serverBuf := s.serverBuf ++ data,
    serverSegs := s.serverSegs ++ [{ length := data.length, ts := timestamp }] }

/-- The canonical flow key (part_002 lines 125-128): the fmt key string
"client:port->server:port" is modelled as the quadruple of its four parts. -/
structure FlowKey where
  clientIp : String
  clientPort : Nat
  serverIp : String
  serverPort : Nat
deriving Repr, DecidableEq

/-- TCPStreamManager (part_002 lines 105-114): the Go map is modelled as an
association list (first match wins, insertion appends). -/
structure TCPStreamManager where
  streams : List (FlowKey × TCPStream)
deriving Repr, DecidableEq

/-- Go map lookup `m.streams[key]`. -/
def findStream : List (FlowKey × TCPStream) → FlowKey → Option TCPStream
  | [], _ => none
  | (k, v) :: rest, key => if k = key then some v else findStream rest key

/-- Go map store `m.streams[key] = stream`. -/
def setStream : List (FlowKey × TCPStream) → FlowKey → TCPStream →
    List (FlowKey × TCPStream)
  | [], key, v => [(key, v)]
  | (k, v0) :: rest, key, v =>
    if k = key then (key, v) :: rest else (k, v0) :: setStream rest key v

/-- The key computation of AddPacket (part_002 lines 123-128): packets from
the server are keyed under the reversed endpoint pair, so both directions of
a conversation share one key. -/
def addPacketKey (ipSrc ipDst : String) (portSrc portDst : Nat)
    (serverIp : String) (serverPort : Nat) : FlowKey :=
  if ipSrc = serverIp ∧ portSrc = serverPort then
    { clientIp := ipDst, clientPort := portDst, serverIp := ipSrc, serverPort := portSrc }
  else
    { clientIp := ipSrc, clientPort := portSrc, serverIp := ipDst, serverPort := portDst }

/-- AddPacket (part_002 lines 122-150). The flow is looked up — and, when
missing, created and stored in the map — before the payload-size checks run.
A `nil` payload and one shorter than 4 bytes are both rejected with a
returned error value (`.ok (manager, some err)`); a nil Go slice has length
0, so the single length test models both rejections. `.error` is a runtime
panic escaping from the direction parsers. -/
def AddPacket (m : TCPStreamManager) (data : List Nat) (timestamp : Nat)
    (ipSrc ipDst : String) (portSrc portDst : Nat)
    (serverIp : String) (serverPort : Nat) :
    Except String (TCPStreamManager × Option String) :=
  let isFromServer := ipSrc = serverIp ∧ portSrc = serverPort
  let key := addPacketKey ipSrc ipDst portSrc portDst serverIp serverPort
  let stream := (findStream m.streams key).getD NewTCPStream
  let streams1 :=
    match findStream m.streams key with
    | some _ => m.streams
    | none => setStream m.streams key NewTCPStream
  if data.length < 4 then
    .ok ({ streams := streams1 }, some "data length less than 4 bytes")
  else
    match (if isFromServer then addServerData stream data timestamp
           else addClientData stream data timestamp) with
    | .error e => .error e
    | .ok stream1 => .ok ({ streams := setStream streams1 key stream1 }, none)

/-- Go unicode.IsSpace restricted to the ASCII range (space, tab, newline,
vertical tab, form feed, carriage return); payload bytes are ASCII SQL text
in every claim considered here. -/
def goIsSpace (b : Nat) : Bool :=
  b == 32 || b == 9 || b == 10 || b == 11 || b == 12 || b == 13

/-- strings.TrimSpace on a byte string. -/
def trimSpace (l : List Nat) : List Nat :=
  ((l.dropWhile goIsSpace).reverse.dropWhile goIsSpace).reverse

/-- PrettyQuery (part_002 lines 26-28):
`strings.TrimSpace(string(m.Payload[:len(m.Payload)-1]))`. On an empty
payload the slice bound `len(m.Payload)-1` is -1, a Go bounds panic. -/
def PrettyQuery (m : PostgreSQLMessage) : Except String (List Nat) :=
  if m.Payload.length = 0 then
    .error "slice bounds out of range"
  else
    .ok (trimSpace (m.Payload.take (m.Payload.length - 1)))

/-- `copy` into the zero-filled tail of a fresh Go buffer of size `n`:
the first `min n src.length` bytes come from `src`, the rest stay 0. -/
def zeroFill (n : Nat) (src : List Nat) : List Nat :=
  src.take n ++ List.replicate (n - src.length) 0

/-- typedByteRow (part_002 lines 38-44): `[type][len:u32be][payload]` in a
buffer of `m.Len + 1` bytes, where `m.Len` is a uint32 and the size is
computed in uint32 arithmetic: at `Len = 2^32 - 1` the size wraps to 0, so
`buf[0] = byte(m.Type)` panics; for sizes 1..4 the `PutUint32` on `buf[1:5]`
panics. -/
def typedByteRow (m : PostgreSQLMessage) : Except String (List Nat) :=
  let bufLen := (m.Len + 1) % 4294967296
  if bufLen = 0 then
    .error "buf[0]: index out of range"
  else if bufLen < 5 then
    .error "buf[1:5]: slice bounds out of range"
  else
    .ok ([m.type] ++ putUint32BE m.Len ++ zeroFill (bufLen - 5) m.Payload)

/-- untypedByteRow (part_002 lines 46-51): `[len:u32be][payload]` in a buffer
of `Len` bytes. `PutUint32` on `buf[0:4]` needs `Len ≥ 4`. -/
def untypedByteRow (m : PostgreSQLMessage) : Except String (List Nat) :=
  if m.Len < 4 then
    .error "buf[0:4]: slice bounds out of range"
  else
    .ok (putUint32BE m.Len ++ zeroFill (m.Len - 4) m.Payload)

/-- Row (part_002 lines 31-36): wire form of a message, dispatching on
`HaveTypeByte`. -/
def Row (m : PostgreSQLMessage) : Except String (List Nat) :=
  if ClientMessageType.HaveTypeByte m.type then typedByteRow m else untypedByteRow m

/-- A client buffer holding one complete typed frame that declares the
maximal length field L = 2^32 - 1: type byte 'Q', four 0xFF length bytes,
and the 2^32 - 5 remaining frame bytes (here zeros). Its total on-wire size
1 + L is exactly the buffer length 2^32. -/
def wrapBuf : List Nat :=
  81 :: 255 :: 255 :: 255 :: 255 :: List.replicate 4294967291 0

/-- A stream whose client buffer is `wrapBuf`, carried by one segment. -/
def wrapStream : TCPStream :=
  { clientBuf := wrapBuf, clientSegs := [{ length := 4294967296, ts := 1 }],
    serverBuf := [], serverSegs := [], completed := [],
    needCommandCompleteIndex := 0, needReadyForQueryIndex := 0 }

/-- The message the framer emits from `wrapBuf`: Len = 2^32 - 1 with a
2^32 - 5 byte payload. -/
def wrapMsg : PostgreSQLMessage :=
  { FirstTCPPacketTimestamp := 1, LastTCPPacketTimestamp := 1,
    CommandCompleteTimestamp := 0, ReadyForQueryTimestamp := 0,
    type := 81, Len := 4294967295, Payload := List.replicate 4294967291 0 }

namespace OldStream

/-- models.go PostgreSQLMessage (the older iteration): no ReadyForQuery
timestamp field. -/
structure PostgreSQLMessage where
  FirstTCPPacketTimestamp : Nat
  LastTCPPacketTimestamp : Nat
  CommandCompleteTimestamp : Nat
  type : Nat
  Len : Nat
  Payload : List Nat
deriving Repr, DecidableEq

/-- assignCommandComplete (internal/stream/stream.go lines 243-250): scan
`completed` for the first entry whose CommandComplete timestamp is still the
zero time and stamp it; when every entry is already stamped (or the list is
empty) the event is absorbed and nothing changes. -/
def assignCommandComplete (completed : List PostgreSQLMessage) (ts : Nat) :
    List PostgreSQLMessage :=
  match completed with
  | [] => []
  | msg :: rest =>
    if msg.CommandCompleteTimestamp = 0 then
      { msg with CommandCompleteTimestamp := ts } :: rest
    else
      msg :: assignCommandComplete rest ts

end OldStream

namespace Replay

/-- The pacing fragment of ReplayMessages (internal/replay/replay.go lines
131-135), over exact rationals in place of float64/time.Duration. The code
computes `targetTime = replayStart + (msgTs - firstTime) / rate` and
`wait = time.Until(targetTime)`, but the body of `if wait > 0` holds only the
commented-out `//time.Sleep(wait)`: the wall clock is not advanced in either
branch. The result is the instant at which the write begins. -/
def pacingClock (replayStart firstTime rate msgTs now : ℚ) : ℚ :=
  let targetTime := replayStart + (msgTs - firstTime) / rate
  let wait := targetTime - now
  if 0 < wait then now else now

/-- Wall-clock instants at which ReplayMessages starts writing each message:
fold of `pacingClock` over the sorted capture timestamps paired with the
externally-caused delay (write plus ReadyForQuery wait) that follows each
message. The initial `now` is `replayStart` (Go `replayStart := time.Now()`). -/
def pacedWriteTimes (replayStart firstTime rate : ℚ) :
    ℚ → List (ℚ × ℚ) → List ℚ
  | _, [] => []
  | now, (msgTs, postDelay) :: rest =>
    let sendAt := pacingClock replayStart firstTime rate msgTs now
    sendAt :: pacedWriteTimes replayStart firstTime rate (sendAt + postDelay) rest

end Replay

/-! Helper lemmas. -/

/-- Encoding the value decoded from four bytes reproduces the bytes. -/
theorem putUint32BE_beUint32 (b0 b1 b2 b3 : Nat) (h0 : b0 < 256) (h1 : b1 < 256)
    (h2 : b2 < 256) (h3 : b3 < 256) :
    putUint32BE (beUint32 b0 b1 b2 b3) = [b0, b1, b2, b3] := by
  simp only [putUint32BE, beUint32, List.cons.injEq, and_true]
  omega

/-- The first five elements of a list of length at least 5. -/
theorem take_five_of_length : ∀ (l : List Nat), 5 ≤ l.length →
    l.take 5 = [l.getD 0 0, l.getD 1 0, l.getD 2 0, l.getD 3 0, l.getD 4 0]
  | _ :: _ :: _ :: _ :: _ :: _, _ => by
    simp [List.getD_cons_zero, List.getD_cons_succ]
  | [], h => by simp at h
  | [_], h => by simp at h
  | [_, _], h => by simp at h
  | [_, _, _], h => by simp at h
  | [_, _, _, _], h => by simp at h

/-- The first four elements of a list of length at least 4. -/
theorem take_four_of_length : ∀ (l : List Nat), 4 ≤ l.length →
    l.take 4 = [l.getD 0 0, l.getD 1 0, l.getD 2 0, l.getD 3 0]
  | _ :: _ :: _ :: _ :: _, _ => by
    simp [List.getD_cons_zero, List.getD_cons_succ]
  | [], h => by simp at h
  | [_], h => by simp at h
  | [_, _], h => by simp at h
  | [_, _, _], h => by simp at h

/-- An in-range `getD` inherits a pointwise bound on the list. -/
theorem getD_lt_of_forall (l : List Nat) (hb : ∀ b ∈ l, b < 256) (i : Nat)
    (h : i < l.length) : l.getD i 0 < 256 := by
  rw [List.getD_eq_getElem l 0 h]
  exact hb _ (List.getElem_mem h)

/-- `findStream` after a `setStream` under a different key is unchanged. -/
theorem findStream_setStream_ne (l : List (FlowKey × TCPStream)) (key k : FlowKey)
    (v : TCPStream) (h : k ≠ key) :
    findStream (setStream l key v) k = findStream l k := by
  induction l with
  | nil =>
    simp only [setStream, findStream]
    rw [if_neg (Ne.symm h)]
  | cons hd tl ih =>
    obtain ⟨k0, v0⟩ := hd
    simp only [setStream]
    by_cases h0 : k0 = key
    · subst h0
      simp only [if_pos rfl, findStream]
      rw [if_neg (Ne.symm h), if_neg (Ne.symm h)]
    · simp only [if_neg h0, findStream]
      by_cases h1 : k0 = k
      · rw [if_pos h1, if_pos h1]
      · rw [if_neg h1, if_neg h1, ih]

/-- `findStream` after a `setStream` at the same key yields the stored value. -/
theorem findStream_setStream_self (l : List (FlowKey × TCPStream)) (key : FlowKey)
    (v : TCPStream) : findStream (setStream l key v) key = some v := by
  induction l with
  | nil => simp [setStream, findStream]
  | cons hd tl ih =>
    obtain ⟨k0, v0⟩ := hd
    by_cases h0 : k0 = key
    · simp [setStream, findStream, h0]
    · simp [setStream, findStream, h0, ih]

/-! Claim theorems. -/

/-- C1. The claim says a framed server 'Z' (ReadyForQuery) frame stamps the
ready-for-query timestamp of the next awaiting client message, so that a
client Query followed by server 'C' then 'Z' ends with both timestamps set.
In the code, `parseServerBuffer` reacts only to first = 'C' and
`assignReadyForQuery` is never invoked: running the scenario (Query framed at
t=100, server 'C' at t=102, server 'Z' at t=103) leaves the Query's
CommandComplete timestamp at 102 but its ReadyForQuery timestamp at the zero
time, contradicting the claim. -/
theorem readyForQuery_never_stamped_S4 :
    ((addClientData NewTCPStream [81, 0, 0, 0, 5, 0] 100).bind
      (fun s => (addServerData s [67, 0, 0, 0, 4] 102).bind
        (fun s => addServerData s [90, 0, 0, 0, 5, 0] 103))).map
      (fun s => s.completed.map
        (fun m => (m.type, m.CommandCompleteTimestamp, m.ReadyForQueryTimestamp)))
    = Except.ok [(81, 102, 0)] := by
  rfl

/-- C2. The claim says a front frame declaring L = 0 (or L over the 10 MiB
cap) makes client extraction halt cleanly, emitting nothing and leaving the
buffer as-is. In the code there is no length validation at all on the client
path: a typed frame declaring L = 0 drives `payloadLen := dataLen - 4`
negative and `make([]byte, payloadLen)` panics, modelled as the fault below
(and no MAX_FRAME constant exists anywhere: an over-long frame is simply
treated as incomplete and is emitted once enough bytes arrive). -/
theorem typed_frame_zero_length_faults :
    addClientData NewTCPStream [81, 0, 0, 0, 0] 3
      = Except.error ("make: negative payload length") := by
  rfl

/-- C3. The claim says a server 'C' frame is only ever paired with a client
message whose kind needs CommandComplete — with client sequence Query then
Parse and then a server 'C', the timestamp must land on the Query. In the
code the cursor is bumped eagerly when a non-awaiting message is appended,
and `assignCommandComplete` stamps `completed[needCommandCompleteIndex]`
without checking its kind: after Query (t=100) and Parse (t=101), a server
'C' at t=105 stamps the Parse (type 80), whose kind does not satisfy
`NeedCommandCompleteAnswer`, while the Query keeps the zero time. -/
theorem commandComplete_lands_on_parse :
    (((addClientData NewTCPStream [81, 0, 0, 0, 5, 0] 100).bind
      (fun s => (addClientData s [80, 0, 0, 0, 5, 0] 101).bind
        (fun s => addServerData s [67, 0, 0, 0, 4] 105))).map
      (fun s => s.completed.map (fun m => (m.type, m.CommandCompleteTimestamp)))
    = Except.ok [(81, 0), (80, 105)])
    ∧ ClientMessageType.NeedCommandCompleteAnswer 80 = false := by
  constructor
  · rfl
  · rfl

/-- C4. The claim says the replay driver sleeps until
`wall0 + (m.ts − t0) / R` whenever that instant is in the future, so capture
times 0.0, 1.0, 3.0 at rate 2 are written at about W, W+0.5, W+1.5. In the
source the `time.Sleep(wait)` call is commented out (the `if wait > 0` body
is empty), so with instantaneous writes and server responses every message is
written at W — not at W, W+0.5, W+1.5. -/
theorem replay_pacing_never_sleeps (w : ℚ) :
    Replay.pacedWriteTimes w 0 2 w [(0, 0), (1, 0), (3, 0)] = [w, w, w] := by
  simp [Replay.pacedWriteTimes, Replay.pacingClock]

/-- C5. The claim says the Segment Log invariant
`sum(segment.length) = len(buffer)` survives every append/consume sequence,
with a straddled segment retained at reduced length. In the code the client
direction's `clearProcessedBytes` pops whole segments until the running sum
reaches the processed count, dropping a straddled segment entirely: one
9-byte segment holding a complete 6-byte Parse frame plus 3 leftover bytes
ends with an empty segment log against a 3-byte buffer (sum 0 against
length 3). -/
theorem segment_log_invariant_broken :
    (addClientData NewTCPStream [80, 0, 0, 0, 5, 0, 81, 0, 0] 7).map
      (fun s => (segsTotalLength s.clientSegs, s.clientBuf.length))
    = Except.ok (0, 3) := by
  rfl

/-- C7. The claim says client extraction never reads past the bytes in the
buffer: with an ASCII first byte and fewer than 5 buffered bytes it must
stop, emit nothing, and leave the state unchanged. The code loops while the
buffer holds more than 3 bytes and the typed path immediately slices
`clientBuf[1:5]`: on the 4-byte buffer 'Q' 00 00 00 that access reaches past
the buffer's bytes (a capacity-dependent panic or stale read in Go),
modelled as the fault below — the server parser in the same file checks
`rem < 5` first, the client parser does not. -/
theorem four_byte_ascii_buffer_reads_past_end :
    addClientData NewTCPStream [81, 0, 0, 0] 5
      = Except.error ("clientBuf[1:5]: slice bounds out of range") := by
  rfl

/-- C6 counterexample. The claim says a packet with a payload shorter than 4
bytes is rejected with an error and no flow state is touched — in particular
no new flow is created. Feeding a 3-byte packet to an empty manager returns
the error, yet the flow table now holds one (empty) flow: AddPacket creates
and stores the flow before the length check runs. -/
theorem short_packet_creates_flow :
    (AddPacket { streams := [] } [1, 2, 3] 5 "10.0.0.1" "10.0.0.2" 1000 5432
        "10.0.0.2" 5432).map
      (fun r => (r.1.streams.length, r.2))
    = Except.ok (1, some ("data length less than 4 bytes")) := by
  rfl

/-- C6 (amended). A packet with a payload shorter than 4 bytes is rejected
with an error before any direction parsing, so every flow that already
existed is unchanged (buffers, segment logs, completed list, cursors); but
the lookup-or-create of the flow table runs first, so when the packet's key
is new an empty flow is created and retained in the table. -/
theorem addPacket_short_payload_rejected (m : TCPStreamManager) (data : List Nat)
    (ts : Nat) (ipSrc ipDst : String) (portSrc portDst : Nat)
    (serverIp : String) (serverPort : Nat) (h : data.length < 4) :
    ∃ m1 : TCPStreamManager,
      AddPacket m data ts ipSrc ipDst portSrc portDst serverIp serverPort
        = Except.ok (m1, some ("data length less than 4 bytes"))
      ∧ (∀ k s, findStream m.streams k = some s → findStream m1.streams k = some s)
      ∧ (findStream m.streams
            (addPacketKey ipSrc ipDst portSrc portDst serverIp serverPort) = none →
          findStream m1.streams
            (addPacketKey ipSrc ipDst portSrc portDst serverIp serverPort)
          = some NewTCPStream) := by
  simp only [AddPacket, if_pos h]
  cases hfind : findStream m.streams
      (addPacketKey ipSrc ipDst portSrc portDst serverIp serverPort) with
  | some s0 =>
    refine ⟨_, rfl, ?_, ?_⟩
    · intro k s hk
      simpa [hfind] using hk
    · intro hnone
      exact absurd hnone (by simp)
  | none =>
    refine ⟨_, rfl, ?_, ?_⟩
    · intro k s hk
      simp only [hfind]
      have hne : k ≠ addPacketKey ipSrc ipDst portSrc portDst serverIp serverPort := by
        intro hkey
        rw [hkey, hfind] at hk
        exact absurd hk (by simp)
      rw [findStream_setStream_ne _ _ _ _ hne]
      exact hk
    · intro _
      simp only [hfind]
      exact findStream_setStream_self _ _ _

/-- C6 witness: the amended theorem applied to an empty manager and a 2-byte
payload. -/
theorem addPacket_short_payload_rejected_witness :
    ∃ m1 : TrafRep.TCPStreamManager,
      AddPacket { streams := [] } [7, 7] 1 "a" "b" 2 3 "c" 4
        = Except.ok (m1, some ("data length less than 4 bytes"))
      ∧ (∀ k s, findStream ({ streams := [] } : TCPStreamManager).streams k = some s →
          findStream m1.streams k = some s)
      ∧ (findStream ({ streams := [] } : TCPStreamManager).streams
            (addPacketKey "a" "b" 2 3 "c" 4) = none →
          findStream m1.streams (addPacketKey "a" "b" 2 3 "c" 4)
          = some NewTCPStream) :=
  addPacket_short_payload_rejected { streams := [] } [7, 7] 1 "a" "b" 2 3 "c" 4
    (by decide)

/-- C9 counterexample. A server 'C' frame arriving while no client message
has completed is not absorbed: `assignCommandComplete` indexes
`completed[needCommandCompleteIndex]` on the empty completed list, the Go
index-out-of-range panic. -/
theorem commandComplete_before_any_client_message_faults :
    addServerData NewTCPStream [67, 0, 0, 0, 4] 7
      = Except.error ("completed: index out of range") := by
  rfl

/-- C9 (amended). In the current iteration (part_002) a 'C' frame emitted
while the command-complete cursor is at or past the end of the completed
list makes the correlation step index out of range (a fault), rather than
absorbing the event; only the older iteration's assignCommandComplete
(internal/stream/stream.go) scans `completed` for the first entry still
carrying the zero timestamp and absorbs the event without fault when there
is none — as proved here. -/
theorem old_assignCommandComplete_absorbs
    (completed : List OldStream.PostgreSQLMessage) (ts : Nat)
    (h : ∀ msg ∈ completed, msg.CommandCompleteTimestamp ≠ 0) :
    OldStream.assignCommandComplete completed ts = completed := by
  induction completed with
  | nil => rfl
  | cons msg rest ih =>
    unfold OldStream.assignCommandComplete
    rw [if_neg (h msg (by simp)), ih (fun m hm => h m (by simp [hm]))]

/-- C9 witness: the amended theorem applied to a one-element completed list
whose entry is already stamped. -/
theorem old_assignCommandComplete_absorbs_witness :
    OldStream.assignCommandComplete
      [{ FirstTCPPacketTimestamp := 1, LastTCPPacketTimestamp := 2,
         CommandCompleteTimestamp := 5, type := 81, Len := 5, Payload := [0] }] 9
    = [{ FirstTCPPacketTimestamp := 1, LastTCPPacketTimestamp := 2,
         CommandCompleteTimestamp := 5, type := 81, Len := 5, Payload := [0] }] :=
  old_assignCommandComplete_absorbs _ 9 (by decide)

/-- C10 counterexample. The claim says extracting the pretty query text is
defined for every emitted message, including a typed message with L = 4 and
empty payload. The framer does emit such a message (buffer 'Q' 00 00 00 04),
and `PrettyQuery` then slices `Payload[:len-1]` with len = 0, the Go bounds
panic, modelled as the fault below. -/
theorem prettyQuery_empty_payload_faults :
    (addClientData NewTCPStream [81, 0, 0, 0, 4] 9).map
      (fun s => s.completed.map (fun m => (m.Len, m.Payload, PrettyQuery m)))
    = Except.ok [(4, [], Except.error ("slice bounds out of range"))] := by
  rfl

/-- C10 (amended). `PrettyQuery` (strip the final byte, trim surrounding
whitespace) is defined for every emitted message whose payload is nonempty;
on a typed message with L = 4 (empty payload) it slices out of bounds. The
replay driver invokes it on Query messages when query printing is enabled. -/
theorem prettyQuery_defined_on_nonempty (m : PostgreSQLMessage)
    (h : m.Payload ≠ []) :
    ∃ q, PrettyQuery m = Except.ok q := by
  refine ⟨trimSpace (m.Payload.take (m.Payload.length - 1)), ?_⟩
  unfold PrettyQuery
  rw [if_neg (by simpa [List.length_eq_zero] using h)]

/-- C10 witness: the amended theorem applied to a Query payload
"SELECT 1;" followed by the NUL terminator. -/
theorem prettyQuery_defined_on_nonempty_witness :
    ∃ q, PrettyQuery
      { FirstTCPPacketTimestamp := 1, LastTCPPacketTimestamp := 1,
        CommandCompleteTimestamp := 0, ReadyForQueryTimestamp := 0,
        type := 81, Len := 14,
        Payload := [83, 69, 76, 69, 67, 84, 32, 49, 59, 0] } = Except.ok q :=
  prettyQuery_defined_on_nonempty _ (by decide)

/-- C8 counterexample. The claim says re-serializing every emitted message
reproduces the source-buffer slice. The framer does emit a typed message
declaring L = 2^32 - 1 from `wrapBuf` (there is no frame-size cap), but Row
on that message computes the Go buffer size `m.Len + 1` in uint32
arithmetic, which wraps to 0: `make([]byte, 0)` followed by `buf[0] =
byte(m.Type)` panics, so the wire bytes are never reproduced. -/
theorem row_roundtrip_fails_at_uint32_wrap :
    tryCreateTypedMessage wrapStream = Except.ok (wrapMsg, 4294967296)
    ∧ (0 : Nat) < 4294967296
    ∧ ClientMessageType.HaveTypeByte (clientMessageType wrapStream) = true
    ∧ Row wrapMsg = Except.error ("buf[0]: index out of range") := by
  have hlen : wrapStream.clientBuf.length = 4294967296 := by
    show (81 :: 255 :: 255 :: 255 :: 255 :: List.replicate 4294967291 (0 : Nat)).length
      = 4294967296
    rw [List.length_cons, List.length_cons, List.length_cons, List.length_cons,
      List.length_cons, List.length_replicate]
  have hg1 : wrapStream.clientBuf.getD 1 0 = 255 := rfl
  have hg2 : wrapStream.clientBuf.getD 2 0 = 255 := rfl
  have hg3 : wrapStream.clientBuf.getD 3 0 = 255 := rfl
  have hg4 : wrapStream.clientBuf.getD 4 0 = 255 := rfl
  have hbe : beUint32 255 255 255 255 = 4294967295 := by
    norm_num [beUint32]
  have hdrop : wrapStream.clientBuf.drop 5 = List.replicate 4294967291 0 := rfl
  have hts0 : timestampByOffset wrapStream.clientSegs 0 = 1 := by
    norm_num [wrapStream, timestampByOffset]
  have hts1 : timestampByOffset wrapStream.clientSegs (1 + 4294967295 - 1) = 1 := by
    norm_num [wrapStream, timestampByOffset]
  have hcm : clientMessageType wrapStream = 81 := rfl
  have hsub : (4294967295 : Nat) - 4 = 4294967291 := by norm_num
  have hpay : (wrapStream.clientBuf.drop 5).take (4294967295 - 4)
      = List.replicate 4294967291 0 := by
    rw [hdrop, hsub, List.take_replicate, Nat.min_self]
  refine ⟨?_, by norm_num, rfl, rfl⟩
  simp only [tryCreateTypedMessage, hg1, hg2, hg3, hg4, hbe, hlen]
  rw [if_neg (by norm_num), if_neg (by norm_num), if_neg (by norm_num)]
  rw [hts0, hts1, hcm, hpay]
  rw [Except.ok.injEq, Prod.mk.injEq]
  exact ⟨rfl, by norm_num⟩

/-- C8 (amended). For every client message the framer emits (the typed path
is taken exactly when the first buffered byte is nonzero, the untyped path
otherwise; processed > 0 is the emission signal), re-serializing with Row
reproduces exactly the leading slice of the source buffer it was framed
from, of size 1 + L for typed and L for length-only messages — except for a
typed message declaring L = 2^32 - 1, where the serializer's uint32 size
`m.Len + 1` wraps to 0 and Row faults instead (the counterexample). -/
theorem emitted_message_row_roundtrip (s : TCPStream)
    (hb : ∀ b ∈ s.clientBuf, b < 256) (msg : PostgreSQLMessage) (p : Nat) :
    (ClientMessageType.HaveTypeByte (clientMessageType s) = true →
        tryCreateTypedMessage s = Except.ok (msg, p) → 0 < p →
        msg.Len ≠ 4294967295 →
        Row msg = Except.ok (s.clientBuf.take p) ∧ p = 1 + msg.Len) ∧
    (tryCreateUntypedMessage s = Except.ok (msg, p) → 0 < p →
        Row msg = Except.ok (s.clientBuf.take p) ∧ p = msg.Len) := by
  constructor
  · intro ht htc hp hw
    simp only [tryCreateTypedMessage] at htc
    by_cases h5 : s.clientBuf.length < 5
    · rw [if_pos h5] at htc
      exact absurd htc (by simp)
    rw [if_neg h5] at htc
    by_cases hlt : s.clientBuf.length <
        1 + beUint32 (s.clientBuf.getD 1 0) (s.clientBuf.getD 2 0)
          (s.clientBuf.getD 3 0) (s.clientBuf.getD 4 0)
    · rw [if_pos hlt] at htc
      rw [Except.ok.injEq, Prod.mk.injEq] at htc
      obtain ⟨-, h0⟩ := htc
      omega
    rw [if_neg hlt] at htc
    by_cases h4 : beUint32 (s.clientBuf.getD 1 0) (s.clientBuf.getD 2 0)
        (s.clientBuf.getD 3 0) (s.clientBuf.getD 4 0) < 4
    · rw [if_pos h4] at htc
      exact absurd htc (by simp)
    rw [if_neg h4] at htc
    rw [Except.ok.injEq, Prod.mk.injEq] at htc
    obtain ⟨hmsg, hp2⟩ := htc
    subst hmsg
    subst hp2
    have hg1 := getD_lt_of_forall _ hb 1 (by omega)
    have hg2 := getD_lt_of_forall _ hb 2 (by omega)
    have hg3 := getD_lt_of_forall _ hb 3 (by omega)
    have hg4 := getD_lt_of_forall _ hb 4 (by omega)
    have hbound : beUint32 (s.clientBuf.getD 1 0) (s.clientBuf.getD 2 0)
        (s.clientBuf.getD 3 0) (s.clientBuf.getD 4 0) < 4294967296 := by
      simp only [beUint32]
      omega
    have hw2 : beUint32 (s.clientBuf.getD 1 0) (s.clientBuf.getD 2 0)
        (s.clientBuf.getD 3 0) (s.clientBuf.getD 4 0) ≠ 4294967295 := hw
    refine ⟨?_, rfl⟩
    simp only [Row]
    rw [if_pos ht]
    simp only [typedByteRow]
    rw [if_neg (by omega), if_neg (by omega)]
    rw [Except.ok.injEq]
    have hn5 : 5 ≤ s.clientBuf.length := by omega
    have hmod : (beUint32 (s.clientBuf.getD 1 0) (s.clientBuf.getD 2 0)
          (s.clientBuf.getD 3 0) (s.clientBuf.getD 4 0) + 1) % 4294967296 - 5
        = beUint32 (s.clientBuf.getD 1 0) (s.clientBuf.getD 2 0)
            (s.clientBuf.getD 3 0) (s.clientBuf.getD 4 0) - 4 := by
      omega
    rw [hmod]
    have hcut : 1 + beUint32 (s.clientBuf.getD 1 0) (s.clientBuf.getD 2 0)
        (s.clientBuf.getD 3 0) (s.clientBuf.getD 4 0)
        = 5 + (beUint32 (s.clientBuf.getD 1 0) (s.clientBuf.getD 2 0)
            (s.clientBuf.getD 3 0) (s.clientBuf.getD 4 0) - 4) := by
      omega
    rw [hcut, List.take_add, take_five_of_length _ hn5]
    have hsrc : ((s.clientBuf.drop 5).take
          (beUint32 (s.clientBuf.getD 1 0) (s.clientBuf.getD 2 0)
            (s.clientBuf.getD 3 0) (s.clientBuf.getD 4 0) - 4)).length
        = beUint32 (s.clientBuf.getD 1 0) (s.clientBuf.getD 2 0)
            (s.clientBuf.getD 3 0) (s.clientBuf.getD 4 0) - 4 := by
      simp only [List.length_take, List.length_drop]
      omega
    have hfill : zeroFill (beUint32 (s.clientBuf.getD 1 0) (s.clientBuf.getD 2 0)
          (s.clientBuf.getD 3 0) (s.clientBuf.getD 4 0) - 4)
          ((s.clientBuf.drop 5).take
            (beUint32 (s.clientBuf.getD 1 0) (s.clientBuf.getD 2 0)
              (s.clientBuf.getD 3 0) (s.clientBuf.getD 4 0) - 4))
        = (s.clientBuf.drop 5).take
            (beUint32 (s.clientBuf.getD 1 0) (s.clientBuf.getD 2 0)
              (s.clientBuf.getD 3 0) (s.clientBuf.getD 4 0) - 4) := by
      rw [zeroFill, hsrc, List.take_of_length_le (le_of_eq hsrc)]
      simp
    rw [hfill]
    rw [putUint32BE_beUint32 _ _ _ _ hg1 hg2 hg3 hg4]
    simp [clientMessageType]
  · intro htc hp
    simp only [tryCreateUntypedMessage] at htc
    by_cases h4l : s.clientBuf.length < 4
    · rw [if_pos h4l] at htc
      exact absurd htc (by simp)
    rw [if_neg h4l] at htc
    by_cases hlt : s.clientBuf.length <
        beUint32 (s.clientBuf.getD 0 0) (s.clientBuf.getD 1 0)
          (s.clientBuf.getD 2 0) (s.clientBuf.getD 3 0)
    · rw [if_pos hlt] at htc
      rw [Except.ok.injEq, Prod.mk.injEq] at htc
      obtain ⟨-, h0⟩ := htc
      omega
    rw [if_neg hlt] at htc
    by_cases h4 : beUint32 (s.clientBuf.getD 0 0) (s.clientBuf.getD 1 0)
        (s.clientBuf.getD 2 0) (s.clientBuf.getD 3 0) < 4
    · rw [if_pos h4] at htc
      exact absurd htc (by simp)
    rw [if_neg h4] at htc
    rw [Except.ok.injEq, Prod.mk.injEq] at htc
    obtain ⟨hmsg, hp2⟩ := htc
    subst hmsg
    subst hp2
    refine ⟨?_, rfl⟩
    simp only [Row]
    rw [if_neg (by simp [ClientMessageType.HaveTypeByte])]
    simp only [untypedByteRow]
    rw [if_neg (by omega)]
    rw [Except.ok.injEq]
    have hn4 : 4 ≤ s.clientBuf.length := by omega
    have hcut : beUint32 (s.clientBuf.getD 0 0) (s.clientBuf.getD 1 0)
        (s.clientBuf.getD 2 0) (s.clientBuf.getD 3 0)
        = 4 + (beUint32 (s.clientBuf.getD 0 0) (s.clientBuf.getD 1 0)
            (s.clientBuf.getD 2 0) (s.clientBuf.getD 3 0) - 4) := by
      omega
    conv_rhs => rw [hcut, List.take_add]
    rw [take_four_of_length _ hn4]
    have hsrc : ((s.clientBuf.drop 4).take
          (beUint32 (s.clientBuf.getD 0 0) (s.clientBuf.getD 1 0)
            (s.clientBuf.getD 2 0) (s.clientBuf.getD 3 0) - 4)).length
        = beUint32 (s.clientBuf.getD 0 0) (s.clientBuf.getD 1 0)
            (s.clientBuf.getD 2 0) (s.clientBuf.getD 3 0) - 4 := by
      simp only [List.length_take, List.length_drop]
      omega
    have hfill : zeroFill (beUint32 (s.clientBuf.getD 0 0) (s.clientBuf.getD 1 0)
          (s.clientBuf.getD 2 0) (s.clientBuf.getD 3 0) - 4)
          ((s.clientBuf.drop 4).take
            (beUint32 (s.clientBuf.getD 0 0) (s.clientBuf.getD 1 0)
              (s.clientBuf.getD 2 0) (s.clientBuf.getD 3 0) - 4))
        = (s.clientBuf.drop 4).take
            (beUint32 (s.clientBuf.getD 0 0) (s.clientBuf.getD 1 0)
              (s.clientBuf.getD 2 0) (s.clientBuf.getD 3 0) - 4) := by
      rw [zeroFill, hsrc, List.take_of_length_le (le_of_eq hsrc)]
      simp
    rw [hfill]
    rw [putUint32BE_beUint32 _ _ _ _
      (getD_lt_of_forall _ hb 0 (by omega)) (getD_lt_of_forall _ hb 1 (by omega))
      (getD_lt_of_forall _ hb 2 (by omega)) (getD_lt_of_forall _ hb 3 (by omega))]

/-- C8 witness: the round-trip theorem applied to the one-segment buffer
'Q' 00 00 00 05 07, whose typed frame is the whole buffer. -/
theorem emitted_message_row_roundtrip_witness :
    Row { FirstTCPPacketTimestamp := 42, LastTCPPacketTimestamp := 42,
          CommandCompleteTimestamp := 0, ReadyForQueryTimestamp := 0,
          type := 81, Len := 5, Payload := [7] }
      = Except.ok (([81, 0, 0, 0, 5, 7] : List Nat).take 6)
    ∧ (6 : Nat) = 1 + 5 :=
  (emitted_message_row_roundtrip
      { clientBuf := [81, 0, 0, 0, 5, 7], clientSegs := [{ length := 6, ts := 42 }],
        serverBuf := [], serverSegs := [], completed := [],
        needCommandCompleteIndex := 0, needReadyForQueryIndex := 0 }
      (by decide) _ 6).1 (by decide) (by rfl) (by decide) (by decide)

end TrafRep
